import Mathlib

/-!
Shallow embedding of the type-bridge schema-to-TypeScript pipeline
(src/core/normalizer.js, src/parsers/prisma-parser.js,
src/parsers/mongoose-parser.js, src/generators/typescript-generator.js,
src/core/generator.js), together with theorems settling the spec claims.

JavaScript values that may be `undefined` are modelled as `Option`;
`none` plays both `undefined` and `null` (the code only distinguishes
them by truthiness, where both are falsy).  JS truthiness on strings
(`""` falsy) and booleans is made explicit by the `jsOr*` helpers.
-/

set_option maxRecDepth 4096

/-- JS `v || d` for a string-valued slot: `undefined`/`""` fall back to `d`. -/
def jsOrStr (v : Option String) (d : String) : String :=
  match v with
  | none => d
  | some s => if s = "" then d else s

/-- JS `v || null` for a string-valued slot: `undefined`/`""` become `null`. -/
def jsOrNullStr (v : Option String) : Option String :=
  match v with
  | none => none
  | some s => if s = "" then none else some s

/-- JS `a || b` where both slots hold a string or are absent. -/
def jsOrOpt (a b : Option String) : Option String :=
  match a with
  | none => b
  | some s => if s = "" then b else some s

/-- JS `v || false` for a boolean-valued slot. -/
def jsOrFalse (v : Option Bool) : Bool := v.getD false

/-- JS `v !== false` for a boolean-valued slot (`undefined !== false` is true). -/
def jsNeqFalse (v : Option Bool) : Bool :=
  match v with
  | some false => false
  | _ => true

/-- JS truthiness of a boolean-valued slot. -/
def jsTruthyBool (v : Option Bool) : Bool := v.getD false

/-- JS truthiness of a string-valued slot (`undefined`, `null`, `""` falsy). -/
def jsTruthyStr (v : Option String) : Bool :=
  match v with
  | none => false
  | some s => s ≠ ""

/-- JS truthiness of an array-valued slot (an array is truthy even when empty). -/
def jsTruthyList (v : Option (List String)) : Bool := v.isSome

/-- JS template-literal rendering of a possibly-undefined string slot. -/
def jsStr (v : Option String) : String := v.getD "undefined"

/--
The non-recursive attributes of a field object as the parsers and the
normalizer exchange them (normalizer.js `normalizeField`, prisma-parser.js
`parseField`, mongoose-parser.js `parseSchemaFields`).  Absent object keys
are `none`.
-/
structure FieldAttrs where
  name : Option String := none
  type : Option String := none
  required : Option Bool := none
  isPrimary : Option Bool := none
  isArray : Option Bool := none
  arrayOf : Option String := none
  isEnum : Option Bool := none
  isEnumArray : Option Bool := none
  enumValues : Option (List String) := none
  isReference : Option Bool := none
  referenceTo : Option String := none
  defaultValue : Option String := none
  description : Option String := none
  isUnique : Option Bool := none
  isSelfReference : Option Bool := none
  deriving DecidableEq, Repr

/--
A field object: its flat attributes plus the optional `nested` list of
sub-field objects (embedded documents may nest to any depth).
-/
inductive RawField where
  | mk (attrs : FieldAttrs) (nested : Option (List RawField))

def RawField.attrs : RawField → FieldAttrs
  | .mk a _ => a

def RawField.nested : RawField → Option (List RawField)
  | .mk _ n => n

def RawField.name (f : RawField) : Option String := f.attrs.name
def RawField.type (f : RawField) : Option String := f.attrs.type
def RawField.required (f : RawField) : Option Bool := f.attrs.required
def RawField.isPrimary (f : RawField) : Option Bool := f.attrs.isPrimary
def RawField.isArray (f : RawField) : Option Bool := f.attrs.isArray
def RawField.arrayOf (f : RawField) : Option String := f.attrs.arrayOf
def RawField.isEnum (f : RawField) : Option Bool := f.attrs.isEnum
def RawField.isEnumArray (f : RawField) : Option Bool := f.attrs.isEnumArray
def RawField.enumValues (f : RawField) : Option (List String) := f.attrs.enumValues
def RawField.isReference (f : RawField) : Option Bool := f.attrs.isReference
def RawField.referenceTo (f : RawField) : Option String := f.attrs.referenceTo
def RawField.defaultValue (f : RawField) : Option String := f.attrs.defaultValue
def RawField.descriptionOf (f : RawField) : Option String := f.attrs.description
def RawField.isUnique (f : RawField) : Option Bool := f.attrs.isUnique
def RawField.isSelfReference (f : RawField) : Option Bool := f.attrs.isSelfReference

/-- A model object as exchanged between parsers, normalizer and generator. -/
structure RawModel where
  modelName : Option String := none
  tableName : Option String := none
  fields : Option (List RawField) := none
  description : Option String := none
  source : Option String := none
  filePath : Option String := none

/-- An enum definition (prisma-parser.js `parseEnum` output). -/
structure EnumDef where
  name : String
  values : List String
  type : String := "enum"
  deriving DecidableEq, Repr

/-!
## normalizer.js
-/

/--
normalizer.js `normalizeField`: returns a fresh object literal filling the
listed keys with defaults.  Keys not in the literal (`isEnumArray`,
`isUnique`) are absent from the result, and `nested` is passed through
unchanged (the source does not recurse into it).
-/
def normalizeField (f : RawField) : RawField :=
  .mk
    { name := f.name
      type := some (jsOrStr f.type "any")
      required := some (jsNeqFalse f.required)
      isPrimary := some (jsOrFalse f.isPrimary)
      isArray := some (jsOrFalse f.isArray)
      arrayOf := jsOrNullStr f.arrayOf
      isEnum := some (jsOrFalse f.isEnum)
      isEnumArray := none
      enumValues := f.enumValues
      isReference := some (jsOrFalse f.isReference)
      referenceTo := jsOrNullStr f.referenceTo
      defaultValue := jsOrNullStr f.defaultValue
      description := jsOrNullStr f.descriptionOf
      isUnique := none
      isSelfReference := none }
    f.nested

/-- normalizer.js `normalizeModel`. -/
def normalizeModel (m : RawModel) : RawModel :=
  { modelName := m.modelName
    tableName := jsOrOpt m.tableName m.modelName
    fields := some ((m.fields.getD []).map normalizeField)
    description := jsOrNullStr m.description
    source := some (jsOrStr m.source "unknown")
    filePath := jsOrNullStr m.filePath }

/-- normalizer.js `validateSchema`: collected error messages, in source order. -/
def validateSchema (m : RawModel) : Bool × List String :=
  let e1 : List String :=
    if jsTruthyStr m.modelName then [] else ["Model must have a name"]
  let e2 : List String :=
    if m.fields.isSome then [] else ["Model must have fields array"]
  let e3 : List String :=
    ((m.fields.getD []).foldl (fun (acc : Nat × List String) f =>
      let nameErrs :=
        if jsTruthyStr f.name then []
        else ["Field at index " ++ toString acc.1 ++ " must have a name"]
      let typeErrs :=
        if jsTruthyStr f.type then []
        else ["Field \x22" ++ jsStr f.name ++ "\x22 must have a type"]
      (acc.1 + 1, acc.2 ++ nameErrs ++ typeErrs)) (0, [])).2
  let errors := e1 ++ e2 ++ e3
  (errors.isEmpty, errors)

/-- Last-wins lookup mirroring `new Map(models.map(m => [m.modelName, m])).get(k)`. -/
def modelMapGet (models : List RawModel) (k : String) : Option RawModel :=
  models.foldl (fun acc m => if m.modelName = some k then some m else acc) none

/-- The reference fields of a model the cycle walker follows
(`field.isReference && field.referenceTo` both truthy). -/
def refTargets (m : RawModel) : List String :=
  (m.fields.getD []).filterMap fun f =>
    if jsTruthyBool f.isReference && jsTruthyStr f.referenceTo then
      f.referenceTo
    else none

/--
normalizer.js `detectCircularReferences` inner `hasCycle`, with the shared
`circularPaths` array threaded explicitly and a fuel bound on the recursion
depth.  The JS recursion only descends when the target is not already on
the path, so the path stays duplicate-free and the depth is bounded by the
number of distinct model names; any fuel of at least `models.length + 2`
reproduces the source behaviour.
-/
def hasCycle (models : List RawModel) : Nat → String → String → List String →
    List String → Bool × List String
  | 0, _, _, _, acc => (false, acc)
  | Nat.succ fuel, currentModel, targetModel, path, acc =>
    if currentModel = targetModel ∧ path.length = 0 then (false, acc)
    else if path.contains targetModel then
      (true, acc ++ [String.intercalate " -> " (path ++ [targetModel])])
    else
      match modelMapGet models targetModel with
      | none => (false, acc)
      | some model =>
        let newPath := path ++ [targetModel]
        (refTargets model).foldl
          (fun (st : Bool × List String) ref =>
            if st.1 then st
            else hasCycle models fuel targetModel ref newPath st.2)
          (false, acc)

/-- First-occurrence-order deduplication mirroring `[...new Set(xs)]`. -/
def dedupFirst (xs : List String) : List String :=
  (xs.foldl (fun acc x => if acc.contains x then acc else acc ++ [x]) [])

/-- normalizer.js `detectCircularReferences`: `(hasCircular, circularPaths)`. -/
def detectCircularReferences (models : List RawModel) : Bool × List String :=
  let paths :=
    models.foldl (fun acc m =>
      (refTargets m).foldl (fun acc2 ref =>
        (hasCycle models (models.length + 2) (jsStr m.modelName) ref
          [jsStr m.modelName] acc2).2) acc) []
  let deduped := dedupFirst paths
  (¬ deduped.isEmpty, deduped)

/-- normalizer.js `markSelfReferences`: returns patched copies of the models,
setting `isSelfReference := true` on every reference field whose target
equals the owning model's name. -/
def markSelfReferences (models : List RawModel) : List RawModel :=
  models.map fun m =>
    { m with
      fields := some ((m.fields.getD []).map fun f =>
        if jsTruthyBool f.isReference ∧ f.referenceTo = m.modelName then
          .mk { f.attrs with isSelfReference := some true } f.nested
        else f) }

example : jsOrStr none "any" = "any" := by decide
example : jsNeqFalse none = true := by decide
example : jsNeqFalse (some false) = false := by decide

/-!
## prisma-parser.js
-/

/-- JS regex `\w`. -/
def isWordChar (c : Char) : Bool := c.isAlpha || c.isDigit || c = '_'

/-- JS regex `\s` (the whitespace the schema texts use). -/
def isSpaceChar (c : Char) : Bool :=
  c = ' ' || c = '\t' || c = '\n' || c = '\r' || c = '\x0b' || c = '\x0c'

/-- JS `String.prototype.trim`. -/
def jsTrim (s : String) : String :=
  String.mk (((s.data.dropWhile isSpaceChar).reverse.dropWhile isSpaceChar).reverse)

/-- JS `String.prototype.startsWith`. -/
def strStartsWith (s pat : String) : Bool := List.isPrefixOf pat.data s.data

/-- JS `String.prototype.endsWith`. -/
def strEndsWith (s pat : String) : Bool := List.isSuffixOf pat.data s.data

def splitOnCharAux (sep : Char) : List Char → List Char → List String
  | [], cur => [String.mk cur.reverse]
  | c :: t, cur =>
    if c = sep then String.mk cur.reverse :: splitOnCharAux sep t []
    else splitOnCharAux sep t (c :: cur)

/-- JS `String.prototype.split` with a one-character separator. -/
def splitOnChar (sep : Char) (s : String) : List String := splitOnCharAux sep s.data []

def hasSubstrAux (hay pat : List Char) : Bool :=
  match hay with
  | [] => pat.isEmpty
  | _ :: t => if List.isPrefixOf pat hay then true else hasSubstrAux t pat

/-- JS `String.prototype.includes`. -/
def jsIncludes (s pat : String) : Bool := hasSubstrAux s.data pat.data

/-- prisma-parser.js `PRISMA_TYPE_MAP`. -/
def prismaTypeMap (t : String) : Option String :=
  if t = "String" then some "string"
  else if t = "Int" then some "number"
  else if t = "Float" then some "number"
  else if t = "Boolean" then some "boolean"
  else if t = "DateTime" then some "Date"
  else if t = "Json" then some "Record<string, unknown>"
  else if t = "Bytes" then some "string"
  else if t = "Decimal" then some "number"
  else if t = "BigInt" then some "number"
  else none

/-- The first match of `/@default\(([^)]+)\)/` in `attributes`, scanning
positions left to right as the regex engine does. -/
def matchDefaultAux : List Char → Option String
  | [] => none
  | c :: t =>
    if List.isPrefixOf ("@default(".data) (c :: t) then
      let after := (c :: t).drop 9
      let cap := after.takeWhile (· ≠ ')')
      let rest := after.dropWhile (· ≠ ')')
      if cap.isEmpty then matchDefaultAux t
      else
        match rest with
        | ')' :: _ => some (String.mk cap)
        | _ => matchDefaultAux t
    else matchDefaultAux t

/-- The field object parseField builds once the line matched
`/^(\w+)\s+([\w[\]]+)(\?)?(.*)$/`. -/
def mkPrismaField (name typeStr : String) (optional : Bool) (attributes : String) :
    RawField :=
  let isArray := strEndsWith typeStr "[]"
  let baseType := if isArray then String.mk (typeStr.data.take (typeStr.length - 2))
    else typeStr
  let mappedType := (prismaTypeMap baseType).getD baseType
  let isPrimary := jsIncludes attributes "@id"
  let isUnique := jsIncludes attributes "@unique"
  let defaultValue := matchDefaultAux attributes.data
  let isReference := (prismaTypeMap baseType).isNone && !isArray
  .mk
    { name := some name
      type := some (if isArray then "array" else mappedType)
      -- source comment: "Primary keys are auto-required"
      required := some (!optional && !isPrimary)
      isPrimary := some isPrimary
      isArray := some isArray
      arrayOf := if isArray then some mappedType else none
      isReference := some isReference
      referenceTo := if isReference then some baseType else none
      defaultValue := defaultValue
      isUnique := some isUnique }
    none

/-- The groups of the field regex `/^(\w+)\s+([\w[\]]+)(\?)?(.*)$/` on the
trimmed line: `(name, typeStr, optional, attributes)`, or `none` when the
line does not match. -/
def fieldLineMatch (l : String) : Option (String × String × Bool × String) :=
  let cs := l.data
  let name := cs.takeWhile isWordChar
  let rest0 := cs.dropWhile isWordChar
  let ws := rest0.takeWhile isSpaceChar
  let rest1 := rest0.dropWhile isSpaceChar
  let isTypeChar : Char → Bool := fun c => isWordChar c || c = '[' || c = ']'
  let typeCs := rest1.takeWhile isTypeChar
  let rest2 := rest1.dropWhile isTypeChar
  if name.isEmpty ∨ ws.isEmpty ∨ typeCs.isEmpty then none
  else
    let optional := rest2.head? == some '?'
    let rest3 := if optional then rest2.tail else rest2
    -- `.` in the trailing `(.*)$` group does not cross a newline
    if rest3.contains '\n' then none
    else some (String.mk name, String.mk typeCs, optional, String.mk rest3)

/-- prisma-parser.js `parseField`: the comment/blank guards (returning
`null`), then the field regex (`null` when it does not match), then the
field object built from the regex groups. -/
def parseField (line : String) : Option RawField :=
  let l := jsTrim line
  let fieldMatch :=
    if l = "" ∨ strStartsWith l "//" ∨ strStartsWith l "@@" then none
    else fieldLineMatch l
  fieldMatch.map fun g => mkPrismaField g.1 g.2.1 g.2.2.1 g.2.2.2

/-- The first match of `/model\s+(\w+)/` (or `/enum\s+(\w+)/`) in a line. -/
def matchKeywordName (kw : List Char) : List Char → Option String
  | [] => none
  | c :: t =>
    (if List.isPrefixOf kw (c :: t) then
      let after := (c :: t).drop kw.length
      let sp := after.takeWhile isSpaceChar
      let rest := after.dropWhile isSpaceChar
      let ident := rest.takeWhile isWordChar
      if sp.isEmpty ∨ ident.isEmpty then matchKeywordName kw t
      else some (String.mk ident)
    else matchKeywordName kw t)

/-- prisma-parser.js `parseModel` (the `filePath` is threaded to the
normalized model as in the source). -/
def parseModel (modelBlock : String) (filePath : String) : Option RawModel :=
  let lines := splitOnChar '\n' modelBlock
  match matchKeywordName ("model".data) (lines.headD "").data with
  | none => none
  | some modelName =>
    let fields := ((lines.drop 1).dropLast).filterMap parseField
    some (normalizeModel
      { modelName := some modelName
        fields := some fields
        source := some "prisma"
        filePath := some filePath })

/-- prisma-parser.js `parseEnum`. -/
def parseEnum (enumBlock : String) : Option EnumDef :=
  match matchKeywordName ("enum".data) enumBlock.data with
  | none => none
  | some name =>
    let values := (splitOnChar '\n' enumBlock).filterMap fun line =>
      let t := jsTrim line
      if t ≠ "" ∧ ¬ strStartsWith t "//" ∧ ¬ strStartsWith t "enum" ∧
          ¬ jsIncludes t "\x7b" ∧ ¬ jsIncludes t "\x7d" then some t
      else none
    some { name := name, values := values }

/--
One attempted match of `/model\s+(\w+)\s*\{[\s\S]*?\}/` (resp. the `enum`
variant) at the head of `cs`: on success, the number of characters the
match consumes.  The lazy `[\s\S]*?\}` stops at the first closing brace.
-/
def tryMatchBlock (kw : List Char) (cs : List Char) : Option Nat :=
  if List.isPrefixOf kw cs then
    let after := cs.drop kw.length
    let sp := after.takeWhile isSpaceChar
    let after1 := after.dropWhile isSpaceChar
    let ident := after1.takeWhile isWordChar
    let after2 := after1.dropWhile isWordChar
    let after3 := after2.dropWhile isSpaceChar
    if sp.isEmpty ∨ ident.isEmpty then none
    else
      match after3 with
      | '\x7b' :: body =>
        let rest := body.dropWhile (· ≠ '\x7d')
        match rest with
        | '\x7d' :: rem => some (cs.length - rem.length)
        | _ => none
      | _ => none
  else none

/-- `content.match(regex)` for the global block regexes: scan left to right,
emitting each non-overlapping match. -/
def scanBlocksAux (kw : List Char) : Nat → List Char → List String
  | 0, _ => []
  | _, [] => []
  | Nat.succ fuel, c :: t =>
    match tryMatchBlock kw (c :: t) with
    | some len =>
      String.mk ((c :: t).take len) :: scanBlocksAux kw fuel ((c :: t).drop len)
    | none => scanBlocksAux kw fuel t

def scanBlocks (kw : String) (content : String) : List String :=
  scanBlocksAux kw.data (content.length + 1) content.data

/-- prisma-parser.js `parsePrismaSchema`, over the already-read file text
(the `fs.readFile` of the source is the caller's I/O). -/
def parsePrismaSchema (content : String) (schemaPath : String) :
    List RawModel × List EnumDef :=
  let modelBlocks := scanBlocks "model" content
  let enumBlocks := scanBlocks "enum" content
  (modelBlocks.filterMap (fun b => parseModel b schemaPath),
   enumBlocks.filterMap parseEnum)

example : Option.map RawField.required (parseField "id String @id @default(cuid())") =
    some (some false) := by decide
example : Option.map RawField.defaultValue (parseField "id String @id @default(cuid())") =
    some (some "cuid(") := by decide
example : Option.map RawField.required (parseField "email String") =
    some (some true) := by decide
example : Option.map RawField.required (parseField "age Int?") =
    some (some false) := by decide
example : Option.map RawField.isArray (parseField "tags String[]") =
    some (some true) := by decide
example : Option.map RawField.referenceTo (parseField "author User") =
    some (some "User") := by decide

/-!
## mongoose-parser.js

A Mongoose field definition is a JavaScript value: a plain object (ordered
key/value entries), an array, a constructor function (carrying its `name`),
a string, or a boolean.  Loading the model modules is host-runtime I/O; the
embedding starts from the introspected `schema.obj` value, as
`parseSchemaFields` receives it.  The value type is a mutual inductive
(object entry lists and array element lists are their own types) so that
the structural functions below compute by kernel reduction.
-/

mutual
inductive MDef where
  | obj (entries : MEntries)
  | arr (elems : MList)
  | fn (fname : String)
  | str (s : String)
  | boolLit (b : Bool)
  deriving DecidableEq
inductive MEntries where
  | nil
  | cons (key : String) (v : MDef) (rest : MEntries)
  deriving DecidableEq
inductive MList where
  | nil
  | cons (v : MDef) (rest : MList)
  deriving DecidableEq
end

def entriesOfList : List (String × MDef) → MEntries
  | [] => .nil
  | (k, v) :: t => .cons k v (entriesOfList t)

def listOfEntries : MEntries → List (String × MDef)
  | .nil => []
  | .cons k v t => (k, v) :: listOfEntries t

def mlistOfList : List MDef → MList
  | [] => .nil
  | v :: t => .cons v (mlistOfList t)

def listOfMList : MList → List MDef
  | .nil => []
  | .cons v t => v :: listOfMList t

/-- A JS object literal from its entry list. -/
def MDef.objL (l : List (String × MDef)) : MDef := .obj (entriesOfList l)

/-- A JS array literal from its element list. -/
def MDef.arrL (l : List MDef) : MDef := .arr (mlistOfList l)

mutual
def mdefSize : MDef → Nat
  | .obj es => 1 + mentriesSize es
  | .arr es => 1 + mlistSize es
  | .fn _ => 1
  | .str _ => 1
  | .boolLit _ => 1
def mentriesSize : MEntries → Nat
  | .nil => 0
  | .cons _ v rest => 1 + mdefSize v + mentriesSize rest
def mlistSize : MList → Nat
  | .nil => 0
  | .cons v rest => 1 + mdefSize v + mlistSize rest
end

/-- JS property access `o[key]` on a plain object (`none` = `undefined`). -/
def getEntry (key : String) : MEntries → Option MDef
  | .nil => none
  | .cons k v t => if k = key then some v else getEntry key t

/-- JS truthiness of an MDef value. -/
def mdefTruthy : MDef → Bool
  | .str s => s ≠ ""
  | .boolLit b => b
  | _ => true

/-- JS string coercion of an MDef value where the source reads it as a
string (reference targets and default literals are strings in the schemas
the pipeline consumes). -/
def mdefAsString : MDef → String
  | .str s => s
  | .fn n => n
  | .boolLit true => "true"
  | .boolLit false => "false"
  | .obj _ => "[object Object]"
  | .arr _ => ""

/-- The element strings of an enum array value. -/
def mdefStrList : MDef → List String
  | .arr es => (listOfMList es).map mdefAsString
  | _ => []

/-- mongoose-parser.js `MONGOOSE_TYPE_MAP`. -/
def mongooseTypeMap (t : String) : Option String :=
  if t = "String" then some "string"
  else if t = "Number" then some "number"
  else if t = "Boolean" then some "boolean"
  else if t = "Date" then some "Date"
  else if t = "Buffer" then some "string"
  else if t = "ObjectId" then some "string"
  else if t = "Mixed" then some "Record<string, any>"
  else if t = "Decimal128" then some "number"
  else if t = "Map" then some "object"
  else if t = "Schema.Types.String" then some "string"
  else if t = "Schema.Types.Number" then some "number"
  else if t = "Schema.Types.Boolean" then some "boolean"
  else if t = "Schema.Types.Date" then some "Date"
  else if t = "Schema.Types.ObjectId" then some "string"
  else if t = "Schema.Types.Mixed" then some "Record<string, any>"
  else if t = "Schema.Types.Decimal128" then some "number"
  else if t = "Schema.Types.Map" then some "object"
  else none

/-- The partial type-info records `extractFieldType` returns (keys absent
from a branch's object literal are `none`). -/
structure TypeInfo where
  type : String
  isArray : Option Bool := none
  arrayOf : Option String := none
  isReference : Option Bool := none
  referenceTo : Option String := none
  isEnum : Option Bool := none
  enumValues : Option (List String) := none
  deriving DecidableEq, Repr

/--
mongoose-parser.js `extractFieldType`, classifying a field definition; the
branch order is the source's: array, object-with-`type`,
object-with-`enum`, constructor function, string name, fallback.

The source recursion is structural on the (finite) schema value: it only
descends into an array's first element or into the value of a `type`
entry, each a strict sub-value.  `fuel` bounds that recursion depth so the
definition is structurally recursive on `fuel`; the wrapper below passes
`mdefSize d`, which strictly exceeds the depth of every chain of
sub-values, so the zero-fuel branch is unreachable and the function
computes exactly the source's value.
-/
def extractFieldTypeGo : Nat → MDef → TypeInfo
  | 0, _ => { type := "any", isReference := some false }
  | Nat.succ fuel, d =>
    match d with
    | .arr .nil => { type := "array", isArray := some true, arrayOf := some "any" }
    | .arr (.cons e _) =>
      let innerType := extractFieldTypeGo fuel e
      { type := "array"
        isArray := some true
        arrayOf := some innerType.type
        isReference := innerType.isReference
        referenceTo := innerType.referenceTo }
    | .obj entries =>
      match getEntry "type" entries with
      | some tdef =>
        if mdefTruthy tdef then
          let typeInfo := extractFieldTypeGo fuel tdef
          match getEntry "ref" entries with
          | some rdef =>
            if mdefTruthy rdef then
              { typeInfo with isReference := some true,
                              referenceTo := some (mdefAsString rdef) }
            else typeInfo
          | none => typeInfo
        else
          match getEntry "enum" entries with
          | some edef =>
            if mdefTruthy edef then
              { type := "string", isEnum := some true,
                enumValues := some (mdefStrList edef) }
            else { type := "any", isReference := some false }
          | none => { type := "any", isReference := some false }
      | none =>
        match getEntry "enum" entries with
        | some edef =>
          if mdefTruthy edef then
            { type := "string", isEnum := some true,
              enumValues := some (mdefStrList edef) }
          else { type := "any", isReference := some false }
        | none => { type := "any", isReference := some false }
    | .fn fname => { type := (mongooseTypeMap fname).getD "any", isReference := some false }
    | .str s => { type := (mongooseTypeMap s).getD "any", isReference := some false }
    | .boolLit _ => { type := "any", isReference := some false }

def extractFieldType (d : MDef) : TypeInfo := extractFieldTypeGo (mdefSize d) d

/-- `typeof v === 'object'` (JS arrays are objects too). -/
def isJsObject : MDef → Bool
  | .obj _ => true
  | .arr _ => true
  | _ => false

def objEntries : MDef → MEntries
  | .obj es => es
  | _ => .nil

/-- JS `o[key] === true`. -/
def entryIsTrue (key : String) (d : MDef) : Bool :=
  match getEntry key (objEntries d) with
  | some (.boolLit true) => true
  | _ => false

/-- The fuel bound for `parseSchemaFields`: one more than the summed sizes
of the schema entries.  Every recursive call (to the rest of the entry
list, or into a nested embedded-object definition) strictly decreases this
measure, so the zero-fuel branch below is unreachable. -/
def pairListSize (l : List (String × MDef)) : Nat :=
  (l.map fun kv => 1 + mdefSize kv.2).sum

/-- mongoose-parser.js `parseSchemaFields` over the introspected
`schema.obj` entries and the `schema.paths` required-flags, with the
structural recursion bounded by fuel as for `extractFieldTypeGo`. -/
def parseSchemaFieldsGo : Nat → List (String × MDef) → List (String × Bool) →
    List RawField
  | 0, _, _ => []
  | Nat.succ _, [], _ => []
  | Nat.succ fuel, (fieldName, fieldDef) :: restObj, schemaPaths =>
    let tail := parseSchemaFieldsGo fuel restObj schemaPaths
    if strStartsWith fieldName "_" then tail
    else
      let typeInfo := extractFieldType fieldDef
      let requiredByDef := isJsObject fieldDef && entryIsTrue "required" fieldDef
      let requiredByPath :=
        match schemaPaths.lookup fieldName with
        | some b => b
        | none => false
      let required := requiredByDef || requiredByPath
      let defaultValue :=
        if isJsObject fieldDef then
          (getEntry "default" (objEntries fieldDef)).map mdefAsString
        else none
      let isUnique := isJsObject fieldDef && entryIsTrue "unique" fieldDef
      let nested : Option (List RawField) :=
        match fieldDef with
        | .obj entries =>
          if !(getEntry "type" entries).any mdefTruthy &&
              !(getEntry "enum" entries).any mdefTruthy then
            some (parseSchemaFieldsGo fuel (listOfEntries entries) [])
          else none
        | _ => none
      let isEnumArray : Option Bool :=
        if jsTruthyBool typeInfo.isArray then typeInfo.isEnum else typeInfo.isArray
      (RawField.mk
        { name := some fieldName
          type := some (if nested.isSome then "object" else typeInfo.type)
          required := some required
          isArray := some (jsOrFalse typeInfo.isArray)
          arrayOf := jsOrNullStr typeInfo.arrayOf
          isReference := some (jsOrFalse typeInfo.isReference)
          referenceTo := jsOrNullStr typeInfo.referenceTo
          isEnum := some (jsOrFalse typeInfo.isEnum)
          isEnumArray := isEnumArray
          enumValues := typeInfo.enumValues
          defaultValue := defaultValue
          isUnique := some isUnique }
        nested) :: tail

def parseSchemaFields (schemaObj : List (String × MDef))
    (schemaPaths : List (String × Bool)) : List RawField :=
  parseSchemaFieldsGo (pairListSize schemaObj + 1) schemaObj schemaPaths

/-- mongoose-parser.js `parseMongooseModel`, after module introspection
(`extractSchemaFromFile` is host-runtime I/O) has produced the model name
and the schema value. -/
def parseMongooseModel (modelName : String) (schemaObj : List (String × MDef))
    (schemaPaths : List (String × Bool)) (filePath : String) : RawModel :=
  normalizeModel
    { modelName := some modelName
      fields := some (parseSchemaFields schemaObj schemaPaths)
      source := some "mongoose"
      filePath := some filePath }

example : extractFieldType (.fn "String") =
    { type := "string", isReference := some false } := by decide
example : (extractFieldType (.objL [("type", .fn "String"),
    ("enum", .arrL [.str "x", .str "y"]), ("default", .str "x")])).isEnum = none := by
  decide
example : (extractFieldType (.objL [("enum", .arrL [.str "x", .str "y"])])).isEnum =
    some true := by decide

/-!
## typescript-generator.js
-/

/-- The options bag the generator functions destructure, with the source's
defaults. -/
structure GenOptions where
  exportType : String := "export"
  includeComments : Bool := true
  readonly : Bool := false
  standalone : Bool := false
  allEnums : List EnumDef := []
  allModels : List RawModel := []
  includeHeader : Bool := true
  banner : Option String := none
  enums : List EnumDef := []

/-- `field.enumValues.map(v => `'${v}'`).join(' | ')`. -/
def enumUnion (values : List String) : String :=
  String.intercalate " | " (values.map fun v => "'" ++ v ++ "'")

mutual

/-- typescript-generator.js `fieldToTypeScript`: branch order is the
source's (enum, array, reference, nested object, bare type), then the
`| null` union when the field is not required. -/
def fieldToTypeScript (field : RawField) (allModels : List RawModel) : String :=
  match field with
  | .mk attrs nestedOpt =>
    let tsType :=
      if jsTruthyBool attrs.isEnum && jsTruthyList attrs.enumValues then
        enumUnion (attrs.enumValues.getD [])
      else if jsTruthyBool attrs.isArray && jsTruthyStr attrs.arrayOf then
        if jsTruthyBool attrs.isEnumArray && jsTruthyList attrs.enumValues then
          "(" ++ enumUnion (attrs.enumValues.getD []) ++ ")[]"
        else jsStr attrs.arrayOf ++ "[]"
      else if jsTruthyBool attrs.isReference && jsTruthyStr attrs.referenceTo then
        jsStr attrs.referenceTo
      else
        match nestedOpt with
        | some nestedFields =>
          if attrs.type == some "object" then
            generateInlineInterface nestedFields allModels
          else jsStr attrs.type
        | none => jsStr attrs.type
    if jsTruthyBool attrs.required then tsType else tsType ++ " | null"
termination_by (sizeOf field, 0)

/-- typescript-generator.js `generateInlineInterface`. -/
def generateInlineInterface (fields : List RawField) (allModels : List RawModel) :
    String :=
  "\x7b\n" ++ String.intercalate "\n" (inlineFieldLines fields allModels) ++ "\n\x7d"
termination_by (sizeOf fields, 1)

/-- The per-field lines of an inline interface (`fields.map(...)`). -/
def inlineFieldLines : List RawField → List RawModel → List String
  | [], _ => []
  | f :: rest, allModels =>
    ("  " ++ jsStr f.name ++ (if jsTruthyBool f.required then "" else "?") ++ ": " ++
      fieldToTypeScript f allModels ++ ";") :: inlineFieldLines rest allModels
termination_by fields _ => (sizeOf fields, 0)

end

/-- typescript-generator.js `generateEnum`. -/
def generateEnum (enumDef : EnumDef) (options : GenOptions) : String :=
  let valueLines := enumDef.values.enum.map fun iv =>
    "  " ++ iv.2 ++ " = '" ++ iv.2 ++ "'" ++
      (if iv.1 < enumDef.values.length - 1 then "," else "")
  String.intercalate "\n"
    ((if options.includeComments then ["/** Auto-generated enum */"] else []) ++
     [options.exportType ++ " enum " ++ enumDef.name ++ " \x7b"] ++
     valueLines ++ ["\x7d"])

/-- typescript-generator.js: the `primitives` set of `collectTypeDependencies`. -/
def primitivesList : List String :=
  ["string", "number", "boolean", "Date", "any", "unknown", "void", "null",
   "undefined", "array", "object"]

/-- `Set.add` keeping JS insertion order. -/
def addUniq (l : List String) (s : String) : List String :=
  if l.contains s then l else l ++ [s]

/-- typescript-generator.js `collectTypeDependencies`:
`(enum imports, model imports)`, each in first-insertion order. -/
def collectTypeDependencies (model : RawModel) (allEnums : List EnumDef) :
    List String × List String :=
  let enumNames := allEnums.map (·.name)
  let classify := fun (acc : List String × List String) (n : String) =>
    if enumNames.contains n then (addUniq acc.1 n, acc.2)
    else (acc.1, addUniq acc.2 n)
  (model.fields.getD []).foldl
    (fun acc f =>
      let acc1 :=
        if jsTruthyBool f.isArray && jsTruthyStr f.arrayOf then
          let a := jsStr f.arrayOf
          if !primitivesList.contains a && !(model.modelName == some a) then
            classify acc a
          else acc
        else if jsTruthyStr f.type &&
            !primitivesList.contains (jsStr f.type) &&
            !(model.modelName == f.type) then
          classify acc (jsStr f.type)
        else acc
      if jsTruthyStr f.referenceTo && !(f.type == f.referenceTo) &&
          !(model.modelName == f.referenceTo) then
        classify acc1 (jsStr f.referenceTo)
      else acc1)
    ([], [])

/-- typescript-generator.js `generateInterface`. -/
def generateInterface (model : RawModel) (options : GenOptions) : String :=
  let deps := collectTypeDependencies model options.allEnums
  let importLines : List String :=
    if options.standalone then
      (if deps.1.length > 0 then
        ["import \x7b " ++ String.intercalate ", " deps.1 ++ " \x7d from './enums';"]
       else []) ++
      (deps.2.map fun modelName =>
        "import type \x7b " ++ modelName ++ " \x7d from './" ++ modelName ++ "';") ++
      (if deps.1.length > 0 || deps.2.length > 0 then [""] else [])
    else []
  let descLines : List String :=
    if options.includeComments && jsTruthyStr model.description then
      ["/**", " * " ++ jsStr model.description, " */"]
    else []
  let autoGenLines : List String :=
    if options.includeComments then
      ["/** Auto-generated from " ++ jsStr model.source ++ " schema */"]
    else []
  let fieldLines : List String :=
    ((model.fields.getD []).map fun f =>
      (if options.includeComments && jsTruthyStr f.descriptionOf then
        ["  /** " ++ jsStr f.descriptionOf ++ " */"]
       else []) ++
      ["  " ++ (if options.readonly then "readonly " else "") ++ jsStr f.name ++
        (if jsTruthyBool f.required then "" else "?") ++ ": " ++
        fieldToTypeScript f options.allModels ++ ";"]).flatten
  String.intercalate "\n"
    (importLines ++ descLines ++ autoGenLines ++
     [options.exportType ++ " interface " ++ jsStr model.modelName ++ " \x7b"] ++
     fieldLines ++ ["\x7d"])

/-- typescript-generator.js `generateTypes` (the generator module's own
multi-model renderer). -/
def generateTypes (models : List RawModel) (options : GenOptions) : String :=
  String.intercalate "\n\n" (models.map fun m => generateInterface m options)

/-- typescript-generator.js `formatCode`: under the test environment (and
whenever Prettier is skipped) the code is returned unchanged; the embedding
models the formatting pass as the identity. -/
def formatCode (code : String) : String := code

/-- typescript-generator.js `generateTypeScriptFile`.  The `Generated:`
header line embeds `new Date().toISOString()`; the observed clock value is
the explicit `now` argument here. -/
def generateTypeScriptFile (models : List RawModel) (options : GenOptions)
    (now : String) : String :=
  let headerParts : List String :=
    if options.includeHeader then
      ["/**", " * AUTO-GENERATED by type-bridge", " * Do not edit manually",
       " * Generated: " ++ now, " */", ""]
    else []
  let bannerParts : List String :=
    match options.banner with
    | some b => if b ≠ "" then ["/* " ++ b ++ " */", ""] else []
    | none => []
  let enumParts : List String :=
    if options.enums.length > 0 then
      [String.intercalate "\n\n" (options.enums.map fun e => generateEnum e options), ""]
    else []
  formatCode (String.intercalate "\n"
    (headerParts ++ bannerParts ++ enumParts ++ [generateTypes models options]))

/-- typescript-generator.js `generateEnumsFile`. -/
def generateEnumsFile (enums : List EnumDef) (options : GenOptions) : String :=
  String.intercalate "\n"
    (["/**", " * AUTO-GENERATED by type-bridge", " * Enum definitions", " */", ""] ++
     (enums.enum.map fun ie =>
       (if ie.1 > 0 then [""] else []) ++ [generateEnum ie.2 options]).flatten)

/-- typescript-generator.js `generateIndexFile`. -/
def generateIndexFile (modelNames : List String) (enums : List EnumDef) : String :=
  String.intercalate "\n"
    (["/**", " * AUTO-GENERATED by type-bridge", " * Type exports", " */", ""] ++
     (if enums.length > 0 then
       ["export \x7b " ++ String.intercalate ", " (enums.map (·.name)) ++
         " \x7d from './enums';", ""]
      else []) ++
     modelNames.map fun name =>
       "export type \x7b " ++ name ++ " \x7d from './" ++ name ++ "';")

/-!
## core/generator.js
-/

/-- The result object core/generator.js `generateTypes` resolves with. -/
structure RunResult where
  success : Bool
  error : Option String := none
  modelsCount : Option Nat := none
  models : Option (List String) := none
  generatedContent : Option String := none
  deriving Repr

/-- One `(path, content)` pair handed to the Writer collaborator. -/
structure WriteCall where
  path : String
  content : String
  deriving DecidableEq, Repr

/-- core/generator.js `validateModels`: the batch is valid when every
model's `validateSchema` is. -/
def validateModels (models : List RawModel) : Bool :=
  models.all fun m => (validateSchema m).1

/--
core/generator.js `generateTypes` (named `coreGenerateTypes` here because
the generator module exports its own `generateTypes`), over the
already-detected ORM and the already-parsed `{models, enums}` (detection
and parsing are filesystem/module I/O in the source).  The Writer
collaborator (`file-writer.js`, outside the core) is taken from the spec:
it receives `(path, content)` pairs and reports success; the pairs the run
hands over are returned beside the result.  `now` is the clock value the
generated header embeds.
-/
def coreGenerateTypes (orm : Option String)
    (parsed : List RawModel × List EnumDef)
    (outputMode : String) (outputPath : Option String)
    (options : GenOptions) (now : String) : RunResult × List WriteCall :=
  match orm with
  | none =>
    ({ success := false,
       error := some "No supported ORM detected. Please install Prisma or Mongoose." },
     [])
  | some _ =>
    let models0 := parsed.1
    let enums := parsed.2
    if models0.length = 0 then
      ({ success := false, error := some "No models found" }, [])
    else
      let models := markSelfReferences models0
      if ¬ validateModels models then
        ({ success := false, error := some "Schema validation failed" }, [])
      else
        let genOpts := { options with allModels := models }
        if outputMode = "separate" then
          let writes := models.map fun m =>
            { path := jsStr m.modelName ++ ".ts"
              content := generateInterface m genOpts : WriteCall }
          let indexContent :=
            generateIndexFile (models.map fun m => jsStr m.modelName) []
          ({ success := true
             modelsCount := some models.length
             models := some (models.map fun m => jsStr m.modelName) },
           writes ++ [{ path := "index.ts", content := indexContent }])
        else
          match outputPath with
          | none => ({ success := false, error := some "outputPath is required" }, [])
          | some outPath =>
            let fileOpts := { genOpts with enums := enums }
            let allTypes := generateTypeScriptFile models fileOpts now
            let finalPath :=
              if strEndsWith outPath ".ts" then outPath else outPath ++ "/index.ts"
            ({ success := true
               modelsCount := some models.length
               models := some (models.map fun m => jsStr m.modelName)
               generatedContent := some allTypes },
             [{ path := finalPath, content := allTypes }])

/-!
## Bridging lemmas
-/

/-- The value `fieldToTypeScript` computes on a field carrying no `nested`
list (the inline-interface branch cannot fire). -/
def fieldToTypeScriptFlat (attrs : FieldAttrs) : String :=
  let tsType :=
    if jsTruthyBool attrs.isEnum && jsTruthyList attrs.enumValues then
      enumUnion (attrs.enumValues.getD [])
    else if jsTruthyBool attrs.isArray && jsTruthyStr attrs.arrayOf then
      if jsTruthyBool attrs.isEnumArray && jsTruthyList attrs.enumValues then
        "(" ++ enumUnion (attrs.enumValues.getD []) ++ ")[]"
      else jsStr attrs.arrayOf ++ "[]"
    else if jsTruthyBool attrs.isReference && jsTruthyStr attrs.referenceTo then
      jsStr attrs.referenceTo
    else jsStr attrs.type
  if jsTruthyBool attrs.required then tsType else tsType ++ " | null"

theorem fieldToTypeScript_flat (attrs : FieldAttrs) (ms : List RawModel) :
    fieldToTypeScript (.mk attrs none) ms = fieldToTypeScriptFlat attrs := by
  rw [fieldToTypeScript]
  rfl

theorem jsOrStr_idem (v : Option String) (d : String) (hd : d ≠ "") :
    jsOrStr (some (jsOrStr v d)) d = jsOrStr v d := by
  cases v with
  | none => simp [jsOrStr, hd]
  | some s => by_cases hs : s = "" <;> simp [jsOrStr, hs, hd]

theorem jsOrNullStr_idem (v : Option String) :
    jsOrNullStr (jsOrNullStr v) = jsOrNullStr v := by
  cases v with
  | none => rfl
  | some s => by_cases hs : s = "" <;> simp [jsOrNullStr, hs]

theorem jsNeqFalse_idem (v : Option Bool) :
    jsNeqFalse (some (jsNeqFalse v)) = jsNeqFalse v := by
  cases v with
  | none => rfl
  | some b => cases b <;> rfl

theorem jsOrFalse_idem (v : Option Bool) :
    jsOrFalse (some (jsOrFalse v)) = jsOrFalse v := by
  cases v with
  | none => rfl
  | some b => cases b <;> rfl

theorem jsOrOpt_idem (t n : Option String) :
    jsOrOpt (jsOrOpt t n) n = jsOrOpt t n := by
  cases t with
  | none =>
    cases n with
    | none => rfl
    | some s => by_cases hs : s = "" <;> simp [jsOrOpt, hs]
  | some s =>
    by_cases hs : s = ""
    · cases n with
      | none => simp [jsOrOpt, hs]
      | some u => by_cases hu : u = "" <;> simp [jsOrOpt, hs, hu]
    · simp [jsOrOpt, hs]

theorem normalizeField_idem (f : RawField) :
    normalizeField (normalizeField f) = normalizeField f := by
  obtain ⟨a, nd⟩ := f
  simp [normalizeField, RawField.name, RawField.type, RawField.required,
    RawField.isPrimary, RawField.isArray, RawField.arrayOf, RawField.isEnum,
    RawField.enumValues, RawField.isReference, RawField.referenceTo,
    RawField.defaultValue, RawField.descriptionOf, RawField.attrs, RawField.nested,
    jsOrStr_idem, jsOrNullStr_idem, jsNeqFalse_idem, jsOrFalse_idem]

theorem normalizeModel_idem (m : RawModel) :
    normalizeModel (normalizeModel m) = normalizeModel m := by
  simp [normalizeModel, jsOrOpt_idem, jsOrNullStr_idem, List.map_map,
    Function.comp, normalizeField_idem,
    jsOrStr_idem (some (jsOrStr m.source "unknown")) "unknown"]
  exact jsOrStr_idem m.source "unknown" (by decide)

/-!
## Claim C8
-/

/-- C8: normalization is idempotent — `normalizeModel (normalizeModel m) =
normalizeModel m` for every raw model `m`, and `normalizeField
(normalizeField f) = normalizeField f` for every raw field `f`. -/
theorem c8_normalize_idempotent :
    (∀ m : RawModel, normalizeModel (normalizeModel m) = normalizeModel m) ∧
    (∀ f : RawField, normalizeField (normalizeField f) = normalizeField f) :=
  ⟨normalizeModel_idem, normalizeField_idem⟩

/-!
## Claim C10
-/

/-- An embedded sub-field whose optional attributes (`required`, `isArray`,
`type`, ...) are all omitted. -/
def c10Inner : RawField := .mk { name := some "bio" } none

/-- A raw model with a nested-object field whose sub-field carries no
defaults. -/
def c10Raw : RawModel :=
  { modelName := some "Profile"
    fields := some [.mk
      { name := some "profile"
        type := some "object" } (some [c10Inner])]
    source := some "mongoose" }

/-- C10 counterexample: after normalization, the sub-field inside
`nestedFields` still has `required = undefined` (not the canonical default
`true`) and `type = undefined` (not `any`) — `normalizeField` passes
`nested` through without recursing, so omitted attributes of nested fields
are not filled. -/
theorem c10_nested_fields_not_normalized_cex :
    ((((normalizeModel c10Raw).fields.getD []).headD c10Inner).nested.getD []).map
        (fun f => (RawField.required f, RawField.type f)) = [(none, none)] := by
  decide

/-- C10 amended: normalization fills each omitted optional attribute of the
field itself with its canonical default (`required` true unless the source
marked it `false`, `isArray`/`isEnum`/`isReference` false, `type` falls
back to `any`), but the fields inside `nestedFields` are passed through
unchanged, at every depth — they are not recursively normalized. -/
theorem c10_top_level_defaults_nested_passthrough (f : RawField) :
    ((normalizeField f).required = some true ∨ f.required = some false) ∧
    (normalizeField f).required = some (jsNeqFalse f.required) ∧
    (normalizeField f).isArray = some (jsOrFalse f.isArray) ∧
    (normalizeField f).isEnum = some (jsOrFalse f.isEnum) ∧
    (normalizeField f).isReference = some (jsOrFalse f.isReference) ∧
    (normalizeField f).type = some (jsOrStr f.type "any") ∧
    (normalizeField f).nested = f.nested := by
  obtain ⟨a, nd⟩ := f
  refine ⟨?_, rfl, rfl, rfl, rfl, rfl, rfl⟩
  cases hv : a.required with
  | none =>
    left
    simp [normalizeField, RawField.required, RawField.attrs, hv, jsNeqFalse]
  | some b =>
    cases b with
    | false => right; simp [RawField.required, RawField.attrs, hv]
    | true =>
      left
      simp [normalizeField, RawField.required, RawField.attrs, hv, jsNeqFalse]

/-!
## Claim C9
-/

/-- C9: when parsing yields zero models, the orchestrator returns a failure
result carrying the `No models found` error and hands nothing to the
Writer, for every detected ORM, enum list, output mode, output path,
options bag and clock value. -/
theorem c9_zero_models_reports_failure (orm : String) (enums : List EnumDef)
    (outputMode : String) (outputPath : Option String) (options : GenOptions)
    (now : String) :
    coreGenerateTypes (some orm) ([], enums) outputMode outputPath options now =
      ({ success := false, error := some "No models found" }, []) := by
  rfl

/-!
## Claim C1
-/

/-- The field object `parseField` produces for
`id String @id @default(cuid())`: note `required = false` — the source
computes `required: !optional && !isPrimary`, so the `@id` flag *clears*
`required`, although its own comment says primary keys are auto-required. -/
def c1Field : RawField := .mk
  { name := some "id"
    type := some "string"
    required := some false
    isPrimary := some true
    isArray := some false
    isReference := some false
    defaultValue := some "cuid("
    isUnique := some false } none

theorem c1_parse : parseField "id String @id @default(cuid())" = some c1Field := by
  rfl

/-- A model whose only field is the parsed `@id` line, normalized as
`parseModel` would. -/
def c1Model : RawModel :=
  normalizeModel
    { modelName := some "User"
      fields := some ((parseField "id String @id @default(cuid())").toList)
      source := some "prisma" }

/-- C1 (code bug evaluation): for the Prisma line
`id String @id @default(cuid())` the parser yields `required = false`
(the claim says `true`), and the generated interface renders the field
optional and nullable — `id?: string | null;` — instead of required. -/
theorem c1_prisma_id_field_renders_optional :
    Option.map RawField.required (parseField "id String @id @default(cuid())") =
      some (some false) ∧
    generateInterface c1Model {} =
      "/** Auto-generated from prisma schema */\nexport interface User \x7b\n  id?: string | null;\n\x7d" := by
  constructor
  · decide
  · simp [c1Model, c1_parse, c1Field, normalizeModel, normalizeField, RawField.name,
      RawField.type, RawField.required, RawField.isPrimary, RawField.isArray,
      RawField.arrayOf, RawField.isEnum, RawField.isEnumArray, RawField.enumValues,
      RawField.isReference, RawField.referenceTo, RawField.defaultValue,
      RawField.descriptionOf, RawField.isUnique, RawField.attrs, RawField.nested,
      generateInterface, fieldToTypeScript_flat]
    decide

/-!
## Claim C3
-/

/-- A single model whose reference field targets the model itself. -/
def c3SelfLoopModel : RawModel :=
  normalizeModel
    { modelName := some "A"
      fields := some [RawField.mk
        { name := some "parent"
          type := some "A"
          isReference := some true
          referenceTo := some "A" } none]
      source := some "prisma" }

/-- C3 (code bug evaluation): a direct self-loop *is* recorded by
`detectCircularReferences` — the batch with the single self-referencing
model `A` returns `hasCircular = true` with circular path `A -> A`.  The
guard `currentModel === targetModel && path.length === 0` can never fire
because the top-level call seeds the path with `[model.modelName]`, so the
source's "Self-reference is allowed and handled separately" comment is not
honoured. -/
theorem c3_self_loop_reported_as_circular :
    detectCircularReferences [c3SelfLoopModel] = (true, ["A -> A"]) := by
  decide

/-!
## Claim C5
-/

/-- A schema whose model block carries a nested parenthesis inside a
`@default(...)` attribute argument. -/
def c5ParenSchema : String :=
  "model User \x7b\n  id String @id @default(dbgenerated(\"uuid()\"))\n  name String\n\x7d"

/-- A schema whose model block carries a brace pair inside a `@default`
string argument; the full model has the three fields id, data, name. -/
def c5BraceSchema : String :=
  "model User \x7b\n  id String\n  data Json @default(\"\x7b\x7d\")\n  name String\n\x7d"

/-- C5 counterexample: the block matcher is the lazy regex
`model\s+(\w+)\s*\{[\s\S]*?\}` — it stops at the *first* closing brace, not
at the balanced one.  With a brace nested inside a `@default` string the
captured block is a truncated prefix: of the three fields only `id`
survives (the `data` line is cut mid-way and the `name` line is lost), so
the claim's "tolerating nested braces ... inside attribute argument lists"
fails. -/
theorem c5_nested_brace_truncates_cex :
    ((parsePrismaSchema c5BraceSchema "schema.prisma").1.map
      (fun m => (m.fields.getD []).map RawField.name)) = [[some "id"]] := by
  decide

/-- C5 amended: the matcher runs from the `model` keyword to the *first*
closing brace.  This does tolerate nested parentheses inside attribute
arguments — for a model block with a nested parenthesis inside
`@default(...)`, `parsePrismaSchema` captures the whole model with all of
its fields — but not nested braces (see the counterexample). -/
theorem c5_nested_paren_full_capture :
    ((parsePrismaSchema c5ParenSchema "schema.prisma").1.map
      (fun m => m.modelName)) = [some "User"] ∧
    ((parsePrismaSchema c5ParenSchema "schema.prisma").1.map
      (fun m => (m.fields.getD []).map RawField.name)) = [[some "id", some "name"]] := by
  constructor <;> decide

/-!
## Claim C2
-/

/-- The Mongoose field descriptor `{type: String, enum: ['x','y'],
default: 'x'}`. -/
def c2Descriptor : MDef := .objL
  [("type", .fn "String"), ("enum", .arrL [.str "x", .str "y"]), ("default", .str "x")]

theorem c2_extract : extractFieldType c2Descriptor =
    { type := "string", isReference := some false } := by
  decide

/-- The field object `parseSchemaFields` produces for the descriptor:
`isEnum = false` and no `enumValues` — the `type` branch of
`extractFieldType` returns before the `enum` check is reached. -/
def c2RoleAttrs : FieldAttrs :=
  { name := some "role"
    type := some "string"
    required := some false
    isArray := some false
    isEnum := some false
    isEnumArray := none
    isReference := some false
    defaultValue := some "x"
    isUnique := some false }

/-- C2 (code bug evaluation): a descriptor carrying both `type` and `enum`
is *not* classified as an enum — `extractFieldType` takes the
object-with-`type` branch and returns before the enum check, yielding a
plain `string` with no `isEnum`/`enumValues`; the parsed field has
`isEnum = false`, and the generator renders `string | null` instead of the
union `'x' | 'y'`. -/
theorem c2_mongoose_type_enum_descriptor_not_enum :
    (extractFieldType c2Descriptor).isEnum = none ∧
    (extractFieldType c2Descriptor).enumValues = none ∧
    (extractFieldType c2Descriptor).type = "string" ∧
    parseSchemaFields [("role", c2Descriptor)] [] = [.mk c2RoleAttrs none] ∧
    fieldToTypeScript (normalizeField (.mk c2RoleAttrs none)) [] = "string | null" := by
  refine ⟨by rw [c2_extract], by rw [c2_extract], by rw [c2_extract], ?_, ?_⟩
  · rfl
  · simp [normalizeField, RawField.attrs, RawField.nested, RawField.name,
      RawField.type, RawField.required, RawField.isPrimary, RawField.isArray,
      RawField.arrayOf, RawField.isEnum, RawField.isEnumArray, RawField.enumValues,
      RawField.isReference, RawField.referenceTo, RawField.defaultValue,
      RawField.descriptionOf, fieldToTypeScript_flat, c2RoleAttrs]
    decide

/-!
## Claim C6
-/

/-- The Mongoose array-of-reference descriptor
`[{type: ObjectId, ref: 'Post'}]`. -/
def c6Descriptor : MDef :=
  .arrL [.objL [("type", .fn "ObjectId"), ("ref", .str "Post")]]

/-- The field object `parseSchemaFields` produces for it: the *field
itself* carries `isReference = true` and `referenceTo = 'Post'` while
`arrayOf` holds only the mapped scalar `string`. -/
def c6PostsAttrs : FieldAttrs :=
  { name := some "posts"
    type := some "array"
    required := some false
    isArray := some true
    arrayOf := some "string"
    isEnum := some false
    isEnumArray := none
    isReference := some true
    referenceTo := some "Post"
    isUnique := some false }

/-- C6 counterexample: for the Mongoose adapter's array-of-reference field,
the normalized field has `isArray = true` *and* `isReference = true` with
`referenceTo = 'Post'` set on the field itself (the element kind `arrayOf`
is the mapped scalar `string`, not the reference) — so an adapter-produced,
normalized field can claim the array shape and the reference shape at
once. -/
theorem c6_mongoose_array_ref_field_cex :
    parseSchemaFields [("posts", c6Descriptor)] [] = [.mk c6PostsAttrs none] ∧
    (normalizeField (.mk c6PostsAttrs none)).isArray = some true ∧
    (normalizeField (.mk c6PostsAttrs none)).isReference = some true ∧
    (normalizeField (.mk c6PostsAttrs none)).referenceTo = some "Post" ∧
    (normalizeField (.mk c6PostsAttrs none)).arrayOf = some "string" := by
  refine ⟨by rfl, by decide, by decide, by decide, by decide⟩

/-- Every field `parseField` yields is built by `mkPrismaField`. -/
theorem parseField_eq_mk (line : String) (f : RawField)
    (h : parseField line = some f) :
    ∃ n t o a, f = mkPrismaField n t o a := by
  unfold parseField at h
  simp only [Option.map_eq_some'] at h
  obtain ⟨g, -, hq⟩ := h
  exact ⟨g.1, g.2.1, g.2.2.1, g.2.2.2, hq.symm⟩

/-- An array field out of `mkPrismaField` never carries the reference
flag or a reference target. -/
theorem mkPrismaField_array_not_ref (n t : String) (o : Bool) (a : String)
    (h : (mkPrismaField n t o a).isArray = some true) :
    (mkPrismaField n t o a).isReference = some false ∧
    (mkPrismaField n t o a).referenceTo = none := by
  unfold mkPrismaField RawField.isArray RawField.isReference RawField.referenceTo
    RawField.attrs at *
  simp only [Option.some.injEq] at h
  simp [h]

/-- C6 amended: for every field the Prisma adapter parses, if the
normalized field has `isArray = true` then it has `isReference = false` and
no `referenceTo` — the element type rides on `arrayOf` alone.  (The
Mongoose adapter does not share this discipline: see the counterexample,
where an array-of-reference descriptor sets `isReference`/`referenceTo` on
the field itself and `arrayOf` is the mapped scalar.) -/
theorem c6_prisma_array_field_not_reference (line : String) (f : RawField)
    (h : parseField line = some f)
    (ha : (normalizeField f).isArray = some true) :
    (normalizeField f).isReference = some false ∧
    (normalizeField f).referenceTo = none := by
  obtain ⟨n, t, o, a, rfl⟩ := parseField_eq_mk line f h
  have hA : (mkPrismaField n t o a).isArray = some true := by
    have hrw : (normalizeField (mkPrismaField n t o a)).isArray
        = some (jsOrFalse (mkPrismaField n t o a).isArray) := rfl
    rw [hrw] at ha
    have h2 : (mkPrismaField n t o a).isArray = some (strEndsWith t "[]") := rfl
    rw [h2] at ha ⊢
    simpa [jsOrFalse] using ha
  obtain ⟨h3, h4⟩ := mkPrismaField_array_not_ref n t o a hA
  constructor
  · show some (jsOrFalse (mkPrismaField n t o a).isReference) = some false
    rw [h3]
    rfl
  · show jsOrNullStr (mkPrismaField n t o a).referenceTo = none
    rw [h4]
    rfl

/-- The field `parseField` yields for `posts Post[]`. -/
def c6ArrayField : RawField := .mk
  { name := some "posts"
    type := some "array"
    required := some true
    isPrimary := some false
    isArray := some true
    arrayOf := some "Post"
    isReference := some false
    isUnique := some false } none

/-- Witness for the C6 amended theorem at the concrete line
`posts Post[]`. -/
theorem c6_prisma_array_field_not_reference_witness :
    (normalizeField c6ArrayField).isReference = some false ∧
    (normalizeField c6ArrayField).referenceTo = none :=
  c6_prisma_array_field_not_reference "posts Post[]" c6ArrayField (by rfl) (by decide)

/-!
## Claim C7
-/

/-- A simple one-field normalized model. -/
def c7Model : RawModel :=
  normalizeModel
    { modelName := some "User"
      fields := some [RawField.mk
        { name := some "email"
          type := some "string"
          required := some true } none]
      source := some "prisma" }

/-- C7 counterexample: two invocations of `generateTypeScriptFile` over the
identical model list and the identical (default) options bag produce
different bytes when the clock advances — the default header embeds
`Generated: ${new Date().toISOString()}`. -/
theorem c7_timestamp_nondeterminism_cex :
    generateTypeScriptFile [c7Model] {} "2024-01-01T00:00:00.000Z" ≠
    generateTypeScriptFile [c7Model] {} "2024-01-02T00:00:00.000Z" := by
  simp only [c7Model, generateTypeScriptFile, generateTypes, generateInterface,
    normalizeModel, normalizeField, RawField.name, RawField.type, RawField.required,
    RawField.isPrimary, RawField.isArray, RawField.arrayOf, RawField.isEnum,
    RawField.isEnumArray, RawField.enumValues, RawField.isReference,
    RawField.referenceTo, RawField.defaultValue, RawField.descriptionOf,
    RawField.attrs, RawField.nested, fieldToTypeScript_flat, formatCode]
  decide

/-- C7 amended: rendering is deterministic in its inputs — `generateInterface`
and `generateTypes` are functions of the model list and options alone, while
`generateTypeScriptFile` additionally embeds the invocation's clock reading in
its header comment.  With the header disabled the file output is byte-identical
across invocations whatever the clock reads; with the default header it is
byte-identical only when the clock reading coincides (see the counterexample). -/
theorem c7_render_deterministic_without_header (models : List RawModel)
    (options : GenOptions) (now1 now2 : String)
    (h : options.includeHeader = false) :
    generateTypeScriptFile models options now1 =
    generateTypeScriptFile models options now2 := by
  simp [generateTypeScriptFile, h]

/-- Witness for the C7 amended theorem at a concrete model, options bag and
pair of clock readings. -/
theorem c7_render_deterministic_without_header_witness :
    generateTypeScriptFile [c7Model] { includeHeader := false }
      "2024-01-01T00:00:00.000Z" =
    generateTypeScriptFile [c7Model] { includeHeader := false }
      "2024-01-02T00:00:00.000Z" :=
  c7_render_deterministic_without_header [c7Model] { includeHeader := false }
    "2024-01-01T00:00:00.000Z" "2024-01-02T00:00:00.000Z" rfl

/-!
## Claim C4
-/

/-- A normalized model with one singular reference field, as the Prisma
adapter produces for `fieldName Target` inside `model Name`. -/
def mutualRefModel (name fieldName target : String) : RawModel :=
  normalizeModel
    { modelName := some name
      fields := some [RawField.mk
        { name := some fieldName
          type := some target
          isReference := some true
          referenceTo := some target } none]
      source := some "prisma" }

/-- C4 counterexample: for the mutually-referencing pair A, B the analyzer
records *both* directions — `A -> B -> A` and `B -> A -> B` — as separate
circular paths (the `Set`-based dedup only removes string-equal paths), so
"exactly one cycle path over the pair, not both" fails. -/
theorem c4_mutual_reference_two_paths_cex :
    detectCircularReferences
      [mutualRefModel "A" "b" "B", mutualRefModel "B" "a" "A"] =
      (true, ["A -> B -> A", "B -> A -> B"]) := by
  decide

/-- `String.intercalate` on a three-element path, in appended form. -/
theorem intercalate_arrow3 (x y z : String) :
    String.intercalate " -> " [x, y, z] = x ++ " -> " ++ y ++ " -> " ++ z := rfl

/-- C4 amended: for distinct models A and B referencing each other through
singular reference fields, `detectCircularReferences` reports exactly one
cycle path *per direction* — both `A -> B -> A` and `B -> A -> B`, in
model order — and in standalone (per-model) mode each model's document
imports the other model as a type-only import. -/
theorem c4_mutual_reference_paths_and_imports (a b fa fb : String)
    (hab : a ≠ b) (ha : a ≠ "") (hb : b ≠ "")
    (hpa : a ∉ primitivesList) (hpb : b ∉ primitivesList)
    (hne : a ++ " -> " ++ b ++ " -> " ++ a ≠ b ++ " -> " ++ a ++ " -> " ++ b) :
    detectCircularReferences [mutualRefModel a fa b, mutualRefModel b fb a] =
      (true, [a ++ " -> " ++ b ++ " -> " ++ a, b ++ " -> " ++ a ++ " -> " ++ b]) ∧
    generateInterface (mutualRefModel a fa b) { standalone := true } =
      String.intercalate "\n"
        ["import type \x7b " ++ b ++ " \x7d from './" ++ b ++ "';", "",
         "/** Auto-generated from prisma schema */",
         "export" ++ " interface " ++ a ++ " \x7b",
         "  " ++ fa ++ ": " ++ b ++ ";", "\x7d"] ∧
    generateInterface (mutualRefModel b fb a) { standalone := true } =
      String.intercalate "\n"
        ["import type \x7b " ++ a ++ " \x7d from './" ++ a ++ "';", "",
         "/** Auto-generated from prisma schema */",
         "export" ++ " interface " ++ b ++ " \x7b",
         "  " ++ fb ++ ": " ++ a ++ ";", "\x7d"] := by
  refine ⟨?_, ?_, ?_⟩
  · simp [mutualRefModel, normalizeModel, normalizeField, RawField.name, RawField.type,
      RawField.required, RawField.isPrimary, RawField.isArray, RawField.arrayOf,
      RawField.isEnum, RawField.isEnumArray, RawField.enumValues, RawField.isReference,
      RawField.referenceTo, RawField.defaultValue, RawField.descriptionOf,
      RawField.attrs, RawField.nested, detectCircularReferences, refTargets,
      modelMapGet, hasCycle, dedupFirst, jsTruthyBool, jsTruthyStr, jsOrNullStr,
      jsOrFalse, jsNeqFalse, jsOrStr, jsOrOpt, jsStr, intercalate_arrow3,
      hab, ha, hb, hne, Ne.symm hab, Ne.symm ha, Ne.symm hb, Ne.symm hne]
  · simp [mutualRefModel, normalizeModel, normalizeField, RawField.name, RawField.type,
      RawField.required, RawField.isPrimary, RawField.isArray, RawField.arrayOf,
      RawField.isEnum, RawField.isEnumArray, RawField.enumValues, RawField.isReference,
      RawField.referenceTo, RawField.defaultValue, RawField.descriptionOf,
      RawField.attrs, RawField.nested, generateInterface, collectTypeDependencies,
      addUniq, fieldToTypeScript_flat, fieldToTypeScriptFlat, jsTruthyBool,
      jsTruthyStr, jsOrNullStr, jsOrFalse, jsNeqFalse, jsOrStr, jsOrOpt, jsStr,
      hab, hb, hpb, Ne.symm hab, Ne.symm hb]
    rfl
  · simp [mutualRefModel, normalizeModel, normalizeField, RawField.name, RawField.type,
      RawField.required, RawField.isPrimary, RawField.isArray, RawField.arrayOf,
      RawField.isEnum, RawField.isEnumArray, RawField.enumValues, RawField.isReference,
      RawField.referenceTo, RawField.defaultValue, RawField.descriptionOf,
      RawField.attrs, RawField.nested, generateInterface, collectTypeDependencies,
      addUniq, fieldToTypeScript_flat, fieldToTypeScriptFlat, jsTruthyBool,
      jsTruthyStr, jsOrNullStr, jsOrFalse, jsNeqFalse, jsOrStr, jsOrOpt, jsStr,
      hab, ha, hpa, Ne.symm hab, Ne.symm ha]
    rfl

/-- Witness for the C4 amended theorem at the concrete pair A, B. -/
theorem c4_mutual_reference_paths_and_imports_witness :
    detectCircularReferences
        [mutualRefModel "A" "b" "B", mutualRefModel "B" "a" "A"] =
      (true, ["A" ++ " -> " ++ "B" ++ " -> " ++ "A",
              "B" ++ " -> " ++ "A" ++ " -> " ++ "B"]) ∧
    generateInterface (mutualRefModel "A" "b" "B") { standalone := true } =
      String.intercalate "\n"
        ["import type \x7b " ++ "B" ++ " \x7d from './" ++ "B" ++ "';", "",
         "/** Auto-generated from prisma schema */",
         "export" ++ " interface " ++ "A" ++ " \x7b",
         "  " ++ "b" ++ ": " ++ "B" ++ ";", "\x7d"] ∧
    generateInterface (mutualRefModel "B" "a" "A") { standalone := true } =
      String.intercalate "\n"
        ["import type \x7b " ++ "A" ++ " \x7d from './" ++ "A" ++ "';", "",
         "/** Auto-generated from prisma schema */",
         "export" ++ " interface " ++ "B" ++ " \x7b",
         "  " ++ "a" ++ ": " ++ "A" ++ ";", "\x7d"] :=
  c4_mutual_reference_paths_and_imports "A" "B" "b" "a" (by decide) (by decide)
    (by decide) (by decide) (by decide) (by decide)
